import Mathlib

/-!
# Verification of `sha2_hasher`

Shallow embedding of the `sha2_hasher` Rust crate (src/lib.rs, src/sync.rs,
src/async.rs, src/sha2_hasher.rs) together with its external collaborators:

* the SHA-2 family (SHA-224/256/384/512) per FIPS 180-4, standing in for the
  `sha2` crate (`Digest::new` / `update` / `finalize`),
* lowercase hex encoding, standing in for `const_hex::ToHexExt::encode_hex`,
* a filesystem oracle, standing in for `std::path::Path::is_file`,
  `Path::exists` and `std::fs::read` / `tokio::fs::read`.

Bytes are `Nat` values kept below 256 by construction; machine words are `Nat`
reduced modulo `2 ^ 32` (SHA-256 family) or `2 ^ 64` (SHA-512 family).
-/

set_option maxRecDepth 1000000

namespace Sha2Hasher

/-! ## Word arithmetic helpers (FIPS 180-4, modelling the `sha2` crate) -/

/-- `2 ^ 32`, the modulus of 32-bit word arithmetic. -/
def w32 : Nat := 4294967296

/-- `2 ^ 64`, the modulus of 64-bit word arithmetic. -/
def w64 : Nat := 18446744073709551616

/-- Right rotation of a 32-bit word. -/
def rotr32 (n x : Nat) : Nat :=
  ((x >>> n) ||| (x <<< (32 - n))) % w32

/-- Right rotation of a 64-bit word. -/
def rotr64 (n x : Nat) : Nat :=
  ((x >>> n) ||| (x <<< (64 - n))) % w64

/-- FIPS 180-4 `Ch(x,y,z)` on words modulo `m`; `¬x` is XOR with the
all-ones word `m - 1`. -/
def ch (m x y z : Nat) : Nat := (x &&& y) ^^^ (((m - 1) ^^^ x) &&& z)

/-- FIPS 180-4 `Maj(x,y,z)`. -/
def maj (x y z : Nat) : Nat := (x &&& y) ^^^ (x &&& z) ^^^ (y &&& z)

/-- FIPS 180-4 `Σ₀` for SHA-256. -/
def bsig0x32 (x : Nat) : Nat := rotr32 2 x ^^^ rotr32 13 x ^^^ rotr32 22 x

/-- FIPS 180-4 `Σ₁` for SHA-256. -/
def bsig1x32 (x : Nat) : Nat := rotr32 6 x ^^^ rotr32 11 x ^^^ rotr32 25 x

/-- FIPS 180-4 `σ₀` for SHA-256. -/
def ssig0x32 (x : Nat) : Nat := rotr32 7 x ^^^ rotr32 18 x ^^^ (x >>> 3)

/-- FIPS 180-4 `σ₁` for SHA-256. -/
def ssig1x32 (x : Nat) : Nat := rotr32 17 x ^^^ rotr32 19 x ^^^ (x >>> 10)

/-- FIPS 180-4 `Σ₀` for SHA-512. -/
def bsig0x64 (x : Nat) : Nat := rotr64 28 x ^^^ rotr64 34 x ^^^ rotr64 39 x

/-- FIPS 180-4 `Σ₁` for SHA-512. -/
def bsig1x64 (x : Nat) : Nat := rotr64 14 x ^^^ rotr64 18 x ^^^ rotr64 41 x

/-- FIPS 180-4 `σ₀` for SHA-512. -/
def ssig0x64 (x : Nat) : Nat := rotr64 1 x ^^^ rotr64 8 x ^^^ (x >>> 7)

/-- FIPS 180-4 `σ₁` for SHA-512. -/
def ssig1x64 (x : Nat) : Nat := rotr64 19 x ^^^ rotr64 61 x ^^^ (x >>> 6)

/-! ## Byte-level helpers -/

/-- Big-endian serialization of `x` into exactly `n` bytes (each `< 256`). -/
def toBytesBE : Nat → Nat → List Nat
  | 0, _ => []
  | n + 1, x => toBytesBE n (x / 256) ++ [x % 256]

/-- Big-endian interpretation of a byte list as a number. -/
def beVal (bs : List Nat) : Nat := bs.foldl (fun acc b => acc * 256 + b) 0

/-- Fuel-driven worker for `chunks`: structural recursion on the fuel so the
kernel can evaluate it; each step consumes at least one element, so fuel
`xs.length` always suffices. -/
def chunksFuel (n : Nat) : Nat → List Nat → List (List Nat)
  | 0, _ => []
  | _, [] => []
  | fuel + 1, x :: xs => (x :: List.take n xs) :: chunksFuel n fuel (List.drop n xs)

/-- Split a list into chunks of `n + 1` elements (the last may be shorter). -/
def chunks (n : Nat) (xs : List Nat) : List (List Nat) :=
  chunksFuel n xs.length xs

/-- FIPS 180-4 padding: append `0x80`, zeros, then the bit length in a
`lenBytes`-byte big-endian field, reaching a multiple of `blockLen` bytes. -/
def padMsg (blockLen lenBytes : Nat) (msg : List Nat) : List Nat :=
  let zeros := (blockLen - (msg.length + 1 + lenBytes) % blockLen) % blockLen
  msg ++ 128 :: List.replicate zeros 0 ++ toBytesBE lenBytes (8 * msg.length)

/-! ## SHA-256 / SHA-224 core -/

/-- The eight working variables / hash state of a SHA-2 computation. -/
structure H8 where
  a : Nat
  b : Nat
  c : Nat
  d : Nat
  e : Nat
  f : Nat
  g : Nat
  h : Nat

/-- The 64 SHA-256 round constants (decimal). -/
def K256 : List Nat :=
  [1116352408, 1899447441, 3049323471, 3921009573, 961987163,
   1508970993, 2453635748, 2870763221, 3624381080, 310598401,
   607225278, 1426881987, 1925078388, 2162078206, 2614888103,
   3248222580, 3835390401, 4022224774, 264347078, 604807628,
   770255983, 1249150122, 1555081692, 1996064986, 2554220882,
   2821834349, 2952996808, 3210313671, 3336571891, 3584528711,
   113926993, 338241895, 666307205, 773529912, 1294757372,
   1396182291, 1695183700, 1986661051, 2177026350, 2456956037,
   2730485921, 2820302411, 3259730800, 3345764771, 3516065817,
   3600352804, 4094571909, 275423344, 430227734, 506948616,
   659060556, 883997877, 958139571, 1322822218, 1537002063,
   1747873779, 1955562222, 2024104815, 2227730452, 2361852424,
   2428436474, 2756734187, 3204031479, 3329325298]

/-- One step of the SHA-256 message-schedule extension: the next word from
the previous 16, with the most recent word at the head of `ws`. -/
def stepW32 (ws : List Nat) : Nat :=
  (ws.getD 15 0 + ssig0x32 (ws.getD 14 0) + ws.getD 6 0 + ssig1x32 (ws.getD 1 0)) % w32

/-- Extend a reversed message schedule by `n` SHA-256 words. -/
def extendW32 : Nat → List Nat → List Nat
  | 0, ws => ws
  | n + 1, ws => extendW32 n (stepW32 ws :: ws)

/-- The full 64-word SHA-256 message schedule of one 64-byte block. -/
def schedule32 (block : List Nat) : List Nat :=
  ((extendW32 48 ((chunks 3 block).map beVal).reverse).reverse)

/-- One SHA-256 compression round with round constant `k` and schedule word `w`. -/
def round32 (st : H8) (kw : Nat × Nat) : H8 :=
  let t1 := (st.h + bsig1x32 st.e + ch w32 st.e st.f st.g + kw.1 + kw.2) % w32
  let t2 := (bsig0x32 st.a + maj st.a st.b st.c) % w32
  ⟨(t1 + t2) % w32, st.a, st.b, st.c, (st.d + t1) % w32, st.e, st.f, st.g⟩

/-- Componentwise addition of two hash states modulo `m`. -/
def addH8 (m : Nat) (x y : H8) : H8 :=
  ⟨(x.a + y.a) % m, (x.b + y.b) % m, (x.c + y.c) % m, (x.d + y.d) % m,
   (x.e + y.e) % m, (x.f + y.f) % m, (x.g + y.g) % m, (x.h + y.h) % m⟩

/-- Process one 64-byte block through the SHA-256 compression function. -/
def processBlock32 (st : H8) (block : List Nat) : H8 :=
  addH8 w32 st ((K256.zip (schedule32 block)).foldl round32 st)

/-- Run the SHA-256 core over a whole message from initial state `h0`. -/
def sha2core32 (h0 : H8) (msg : List Nat) : H8 :=
  (chunks 63 (padMsg 64 8 msg)).foldl processBlock32 h0

/-- SHA-256 initial hash value (FIPS 180-4 §5.3.3, decimal). -/
def initH256 : H8 :=
  ⟨1779033703, 3144134277, 1013904242, 2773480762,
   1359893119, 2600822924, 528734635, 1541459225⟩

/-- SHA-224 initial hash value (FIPS 180-4 §5.3.2, decimal). -/
def initH224 : H8 :=
  ⟨3238371032, 914150663, 812702999, 4144912697,
   4290775857, 1750603025, 1694076839, 3204075428⟩

/-- SHA-256 digest bytes (32 bytes) of a message. -/
def sha256bytes (msg : List Nat) : List Nat :=
  let s := sha2core32 initH256 msg
  toBytesBE 4 s.a ++ toBytesBE 4 s.b ++ toBytesBE 4 s.c ++ toBytesBE 4 s.d ++
  toBytesBE 4 s.e ++ toBytesBE 4 s.f ++ toBytesBE 4 s.g ++ toBytesBE 4 s.h

/-- SHA-224 digest bytes (28 bytes): first seven words of the SHA-224 state. -/
def sha224bytes (msg : List Nat) : List Nat :=
  let s := sha2core32 initH224 msg
  toBytesBE 4 s.a ++ toBytesBE 4 s.b ++ toBytesBE 4 s.c ++ toBytesBE 4 s.d ++
  toBytesBE 4 s.e ++ toBytesBE 4 s.f ++ toBytesBE 4 s.g

/-! ## SHA-512 / SHA-384 core -/

/-- The 80 SHA-512 round constants (decimal). -/
def K512 : List Nat :=
  [4794697086780616226, 8158064640168781261, 13096744586834688815,
   16840607885511220156, 4131703408338449720, 6480981068601479193,
   10538285296894168987, 12329834152419229976, 15566598209576043074,
   1334009975649890238, 2608012711638119052, 6128411473006802146,
   8268148722764581231, 9286055187155687089, 11230858885718282805,
   13951009754708518548, 16472876342353939154, 17275323862435702243,
   1135362057144423861, 2597628984639134821, 3308224258029322869,
   5365058923640841347, 6679025012923562964, 8573033837759648693,
   10970295158949994411, 12119686244451234320, 12683024718118986047,
   13788192230050041572, 14330467153632333762, 15395433587784984357,
   489312712824947311, 1452737877330783856, 2861767655752347644,
   3322285676063803686, 5560940570517711597, 5996557281743188959,
   7280758554555802590, 8532644243296465576, 9350256976987008742,
   10552545826968843579, 11727347734174303076, 12113106623233404929,
   14000437183269869457, 14369950271660146224, 15101387698204529176,
   15463397548674623760, 17586052441742319658, 1182934255886127544,
   1847814050463011016, 2177327727835720531, 2830643537854262169,
   3796741975233480872, 4115178125766777443, 5681478168544905931,
   6601373596472566643, 7507060721942968483, 8399075790359081724,
   8693463985226723168, 9568029438360202098, 10144078919501101548,
   10430055236837252648, 11840083180663258601, 13761210420658862357,
   14299343276471374635, 14566680578165727644, 15097957966210449927,
   16922976911328602910, 17689382322260857208, 500013540394364858,
   748580250866718886, 1242879168328830382, 1977374033974150939,
   2944078676154940804, 3659926193048069267, 4368137639120453308,
   4836135668995329356, 5532061633213252278, 6448918945643986474,
   6902733635092675308, 7801388544844847127]

/-- One step of the SHA-512 message-schedule extension (reversed schedule). -/
def stepW64 (ws : List Nat) : Nat :=
  (ws.getD 15 0 + ssig0x64 (ws.getD 14 0) + ws.getD 6 0 + ssig1x64 (ws.getD 1 0)) % w64

/-- Extend a reversed message schedule by `n` SHA-512 words. -/
def extendW64 : Nat → List Nat → List Nat
  | 0, ws => ws
  | n + 1, ws => extendW64 n (stepW64 ws :: ws)

/-- The full 80-word SHA-512 message schedule of one 128-byte block. -/
def schedule64 (block : List Nat) : List Nat :=
  ((extendW64 64 ((chunks 7 block).map beVal).reverse).reverse)

/-- One SHA-512 compression round with round constant and schedule word. -/
def round64 (st : H8) (kw : Nat × Nat) : H8 :=
  let t1 := (st.h + bsig1x64 st.e + ch w64 st.e st.f st.g + kw.1 + kw.2) % w64
  let t2 := (bsig0x64 st.a + maj st.a st.b st.c) % w64
  ⟨(t1 + t2) % w64, st.a, st.b, st.c, (st.d + t1) % w64, st.e, st.f, st.g⟩

/-- Process one 128-byte block through the SHA-512 compression function. -/
def processBlock64 (st : H8) (block : List Nat) : H8 :=
  addH8 w64 st ((K512.zip (schedule64 block)).foldl round64 st)

/-- Run the SHA-512 core over a whole message from initial state `h0`. -/
def sha2core64 (h0 : H8) (msg : List Nat) : H8 :=
  (chunks 127 (padMsg 128 16 msg)).foldl processBlock64 h0

/-- SHA-512 initial hash value (FIPS 180-4 §5.3.5, decimal). -/
def initH512 : H8 :=
  ⟨7640891576956012808, 13503953896175478587, 4354685564936845355,
   11912009170470909681, 5840696475078001361, 11170449401992604703,
   2270897969802886507, 6620516959819538809⟩

/-- SHA-384 initial hash value (FIPS 180-4 §5.3.4, decimal). -/
def initH384 : H8 :=
  ⟨14680500436340154072, 7105036623409894663, 10473403895298186519,
   1526699215303891257, 7436329637833083697, 10282925794625328401,
   15784041429090275239, 5167115440072839076⟩

/-- SHA-512 digest bytes (64 bytes) of a message. -/
def sha512bytes (msg : List Nat) : List Nat :=
  let s := sha2core64 initH512 msg
  toBytesBE 8 s.a ++ toBytesBE 8 s.b ++ toBytesBE 8 s.c ++ toBytesBE 8 s.d ++
  toBytesBE 8 s.e ++ toBytesBE 8 s.f ++ toBytesBE 8 s.g ++ toBytesBE 8 s.h

/-- SHA-384 digest bytes (48 bytes): first six words of the SHA-384 state. -/
def sha384bytes (msg : List Nat) : List Nat :=
  let s := sha2core64 initH384 msg
  toBytesBE 8 s.a ++ toBytesBE 8 s.b ++ toBytesBE 8 s.c ++ toBytesBE 8 s.d ++
  toBytesBE 8 s.e ++ toBytesBE 8 s.f

/-! ## Hex encoding (modelling `const_hex::ToHexExt::encode_hex`) -/

/-- Lowercase hex digit of a value `< 16`: `'0'..'9'` then `'a'..'f'`. -/
def hexDigit (n : Nat) : Char :=
  if n < 10 then Char.ofNat (48 + n) else Char.ofNat (87 + n)

/-- Lowercase hex encoding of a byte list, two characters per byte,
high nibble first, with no separators, prefix, or line breaks. -/
def encode_hex (bs : List Nat) : String :=
  String.mk (bs.foldr (fun b acc => hexDigit (b / 16) :: hexDigit (b % 16) :: acc) [])

/-! ## Algorithm selector and digests -/

/-- The four statically-selected SHA-2 algorithms of the crate. -/
inductive Alg where
  | sha224
  | sha256
  | sha384
  | sha512
deriving DecidableEq

/-- `D::new(); update(data); finalize()` of the `sha2` crate for selector `D`. -/
def digestBytes : Alg → List Nat → List Nat
  | .sha224, msg => sha224bytes msg
  | .sha256, msg => sha256bytes msg
  | .sha384, msg => sha384bytes msg
  | .sha512, msg => sha512bytes msg

/-- The digest size in bytes of each algorithm. -/
def digest_size : Alg → Nat
  | .sha224 => 28
  | .sha256 => 32
  | .sha384 => 48
  | .sha512 => 64

/-! ## Filesystem model

`std::path::Path::is_file` is `metadata(path).map(|m| m.is_file()).unwrap_or(false)`
and `Path::exists` is `metadata(path).is_ok()`; `std::fs::read` /
`tokio::fs::read` return the file bytes or an I/O error. We model the
filesystem as the pair of oracles these calls consult. -/

/-- The error kinds of `std::io::ErrorKind` relevant to the crate. -/
inductive ErrorKind where
  | notFound
  | invalidInput
  | permissionDenied
  | other (code : Nat)
deriving DecidableEq

/-- A `std::io::Error`: a kind plus a message. -/
structure IOError where
  kind : ErrorKind
  msg : String
deriving DecidableEq

/-- `std::fs::Metadata`, restricted to the one query the crate makes. -/
structure Metadata where
  is_file : Bool
deriving DecidableEq

/-- The filesystem as observed by one call: the metadata query made by the
validation step and the whole-file read (possibly reflecting a different
filesystem state, which is how a check-to-read race surfaces). -/
structure FileSystem where
  metadata : String → Except IOError Metadata
  read : String → Except IOError (List Nat)

/-- `Path::is_file`: `true` iff the metadata query succeeds and reports a
regular file; a failed query (nonexistent path, denied access) gives `false`. -/
def is_file (fs : FileSystem) (path : String) : Bool :=
  match fs.metadata path with
  | .ok m => m.is_file
  | .error _ => false

/-- `Path::exists`: `true` iff the metadata query succeeds; a failed query
(nonexistent path, denied access) gives `false`. -/
def pathExists (fs : FileSystem) (path : String) : Bool :=
  match fs.metadata path with
  | .ok _ => true
  | .error _ => false

/-- The fixed message of the validation error in `hash_file`. -/
def invalidPathMsg : String := "Invalid path: must be an existing and accessible file"

/-! ## `hash_file` and the trait methods -/

/-- `hash_file::<D, _>` from src/sync.rs (identical in src/lib.rs under the
`sync` feature): reject non-files with `InvalidInput`/`NotFound` depending on
`exists()`, else read the whole file (propagating its error via `?`), hash the
bytes in one update, and hex-encode the finalized digest. -/
def hash_file (D : Alg) (fs : FileSystem) (path : String) : Except IOError String :=
  if !(is_file fs path) then
    .error ⟨if pathExists fs path then .invalidInput else .notFound, invalidPathMsg⟩
  else
    match fs.read path with
    | .error e => .error e
    | .ok data => .ok (encode_hex (digestBytes D data))

/-- `hash_file::<D, _>` from src/async.rs (identical in src/sha2_hasher.rs and
in src/lib.rs under the `async` feature): same body with `read(path).await?`;
suspension has no observable effect in the embedding, so the awaited read is
the read oracle's value. -/
def hash_file_async (D : Alg) (fs : FileSystem) (path : String) : Except IOError String :=
  if !(is_file fs path) then
    .error ⟨if pathExists fs path then .invalidInput else .notFound, invalidPathMsg⟩
  else
    match fs.read path with
    | .error e => .error e
    | .ok data => .ok (encode_hex (digestBytes D data))

/-- `sha224` of the `Sha2Hasher` trait (sync): `hash_file::<Sha224, _>`. -/
def sha224 (fs : FileSystem) (path : String) : Except IOError String :=
  hash_file .sha224 fs path

/-- `sha256` of the `Sha2Hasher` trait (sync): `hash_file::<Sha256, _>`. -/
def sha256 (fs : FileSystem) (path : String) : Except IOError String :=
  hash_file .sha256 fs path

/-- `sha384` of the `Sha2Hasher` trait (sync): `hash_file::<Sha384, _>`. -/
def sha384 (fs : FileSystem) (path : String) : Except IOError String :=
  hash_file .sha384 fs path

/-- `sha512` of the `Sha2Hasher` trait (sync): `hash_file::<Sha512, _>`. -/
def sha512 (fs : FileSystem) (path : String) : Except IOError String :=
  hash_file .sha512 fs path

/-! ## Instrumented version for the ordering claim -/

/-- Observable steps of one `hash_file` call. -/
inductive Event where
  | checkEv (ok : Bool)
  | readEv (ok : Bool)
  | hashEv
deriving DecidableEq

/-- `hash_file` instrumented with the sequence of steps it performs, in
order: the validation check, then (only if it passed) the read, then (only if
that succeeded) the hash-and-encode. -/
def hash_file_trace (D : Alg) (fs : FileSystem) (path : String) :
    Except IOError String × List Event :=
  if !(is_file fs path) then
    (.error ⟨if pathExists fs path then .invalidInput else .notFound, invalidPathMsg⟩,
     [.checkEv false])
  else
    match fs.read path with
    | .error e => (.error e, [.checkEv true, .readEv false])
    | .ok data =>
        (.ok (encode_hex (digestBytes D data)), [.checkEv true, .readEv true, .hashEv])

/-- Replace the read oracle of a filesystem, leaving metadata unchanged:
used to state that an outcome is independent of any read. -/
def withRead (fs : FileSystem) (r : String → Except IOError (List Nat)) : FileSystem :=
  { fs with read := r }

/-! ## Concrete fixtures and filesystems -/

/-- Modelled from the spec: the repository's sample fixture (the `.gitignore`
file the tests hash) is not under src/; the spec identifies its content as the
byte sequence whose SHA-256 digest is
`44c92e3a70ad3307b7056871c2bdb096d8bfa9373f5bf06a79bb6324a20ff2fb`, which this
sequence — the ASCII bytes of the line `/target` followed by a newline —
attains. -/
def fixtureContent : List Nat := [0x2f, 0x74, 0x61, 0x72, 0x67, 0x65, 0x74, 0x0a]

/-- A filesystem whose every path is an empty regular file. -/
def fsEmptyFile : FileSystem := ⟨fun _ => .ok ⟨true⟩, fun _ => .ok []⟩

/-- A filesystem whose every path is a regular file holding the fixture bytes. -/
def fsFixture : FileSystem := ⟨fun _ => .ok ⟨true⟩, fun _ => .ok fixtureContent⟩

/-- A filesystem with no entries: every metadata query and read fails with
`NotFound`. -/
def fsMissing : FileSystem :=
  ⟨fun _ => .error ⟨.notFound, "No such file or directory"⟩,
   fun _ => .error ⟨.notFound, "No such file or directory"⟩⟩

/-- A filesystem whose every path is a directory; reads fail accordingly. -/
def fsDir : FileSystem :=
  ⟨fun _ => .ok ⟨false⟩, fun _ => .error ⟨.other 21, "Is a directory"⟩⟩

/-- A filesystem whose metadata queries themselves fail with permission
denied, as for a path inside an unsearchable directory. -/
def fsDenied : FileSystem :=
  ⟨fun _ => .error ⟨.permissionDenied, "Permission denied"⟩,
   fun _ => .error ⟨.permissionDenied, "Permission denied"⟩⟩

/-- A filesystem whose every path is a regular file that cannot be read:
the check passes and the read fails. -/
def fsUnreadable : FileSystem :=
  ⟨fun _ => .ok ⟨true⟩, fun _ => .error ⟨.permissionDenied, "Permission denied"⟩⟩

/-! ## Supporting lemmas -/

/-- `toBytesBE` produces exactly the requested number of bytes. -/
theorem toBytesBE_length (n x : Nat) : (toBytesBE n x).length = n := by
  induction n generalizing x with
  | zero => rfl
  | succ n ih => simp [toBytesBE, ih]

/-- Every byte produced by `toBytesBE` is below 256. -/
theorem toBytesBE_lt (n x : Nat) : ∀ b ∈ toBytesBE n x, b < 256 := by
  induction n generalizing x with
  | zero => simp [toBytesBE]
  | succ n ih =>
      intro b hb
      simp only [toBytesBE, List.mem_append, List.mem_singleton] at hb
      rcases hb with hb | hb
      · exact ih _ _ hb
      · subst hb; exact Nat.mod_lt _ (by norm_num)

/-- Each algorithm's digest has exactly `digest_size` bytes, on any message. -/
theorem digestBytes_length (D : Alg) (msg : List Nat) :
    (digestBytes D msg).length = digest_size D := by
  cases D <;>
    simp [digestBytes, digest_size, sha224bytes, sha256bytes, sha384bytes,
      sha512bytes, toBytesBE_length]

/-- Every byte of a SHA-224 digest is below 256. -/
theorem sha224bytes_lt (msg : List Nat) : ∀ b ∈ sha224bytes msg, b < 256 := by
  intro b hb
  simp only [sha224bytes, List.mem_append] at hb
  rcases hb with (((((hb | hb) | hb) | hb) | hb) | hb) | hb <;>
    exact toBytesBE_lt _ _ _ hb

/-- Every byte of a SHA-256 digest is below 256. -/
theorem sha256bytes_lt (msg : List Nat) : ∀ b ∈ sha256bytes msg, b < 256 := by
  intro b hb
  simp only [sha256bytes, List.mem_append] at hb
  rcases hb with ((((((hb | hb) | hb) | hb) | hb) | hb) | hb) | hb <;>
    exact toBytesBE_lt _ _ _ hb

/-- Every byte of a SHA-384 digest is below 256. -/
theorem sha384bytes_lt (msg : List Nat) : ∀ b ∈ sha384bytes msg, b < 256 := by
  intro b hb
  simp only [sha384bytes, List.mem_append] at hb
  rcases hb with ((((hb | hb) | hb) | hb) | hb) | hb <;>
    exact toBytesBE_lt _ _ _ hb

/-- Every byte of a SHA-512 digest is below 256. -/
theorem sha512bytes_lt (msg : List Nat) : ∀ b ∈ sha512bytes msg, b < 256 := by
  intro b hb
  simp only [sha512bytes, List.mem_append] at hb
  rcases hb with ((((((hb | hb) | hb) | hb) | hb) | hb) | hb) | hb <;>
    exact toBytesBE_lt _ _ _ hb

/-- Every byte of a digest is below 256, on any message. -/
theorem digestBytes_lt (D : Alg) (msg : List Nat) :
    ∀ b ∈ digestBytes D msg, b < 256 := by
  cases D with
  | sha224 => exact sha224bytes_lt msg
  | sha256 => exact sha256bytes_lt msg
  | sha384 => exact sha384bytes_lt msg
  | sha512 => exact sha512bytes_lt msg

/-- The character list underlying `encode_hex`. -/
def hexCharsOf (bs : List Nat) : List Char :=
  bs.foldr (fun b acc => hexDigit (b / 16) :: hexDigit (b % 16) :: acc) []

/-- `encode_hex` is `String.mk` of `hexCharsOf`. -/
theorem encode_hex_eq_mk (bs : List Nat) : encode_hex bs = String.mk (hexCharsOf bs) := rfl

/-- The sixteen lowercase hex characters. -/
def hexAlphabet : List Char := ("0123456789abcdef").data

/-- `hexDigit` of a value below 16 is a lowercase hex character. -/
theorem hexDigit_mem_hexAlphabet (n : Nat) (h : n < 16) : hexDigit n ∈ hexAlphabet := by
  interval_cases n <;> decide

/-- `hexCharsOf` has two characters per byte. -/
theorem hexCharsOf_length (bs : List Nat) : (hexCharsOf bs).length = 2 * bs.length := by
  induction bs with
  | nil => rfl
  | cons b bs ih => simp [hexCharsOf] at ih ⊢; omega

/-- Every character of `hexCharsOf` comes from a nibble of some byte. -/
theorem mem_hexCharsOf {c : Char} {bs : List Nat} (h : c ∈ hexCharsOf bs) :
    ∃ b ∈ bs, c = hexDigit (b / 16) ∨ c = hexDigit (b % 16) := by
  induction bs with
  | nil => simp [hexCharsOf] at h
  | cons b bs ih =>
      simp only [hexCharsOf, List.foldr_cons, List.mem_cons] at h
      rcases h with h | h | h
      · exact ⟨b, List.mem_cons_self .., Or.inl h⟩
      · exact ⟨b, List.mem_cons_self .., Or.inr h⟩
      · obtain ⟨b', hb', hc⟩ := ih h
        exact ⟨b', List.mem_cons_of_mem _ hb', hc⟩

/-- On bytes below 256, every character of the hex encoding is a lowercase
hex character. -/
theorem encode_hex_chars {bs : List Nat} (hlt : ∀ b ∈ bs, b < 256) :
    ∀ c ∈ (encode_hex bs).data, c ∈ hexAlphabet := by
  intro c hc
  rw [encode_hex_eq_mk] at hc
  obtain ⟨b, hb, hnib⟩ := mem_hexCharsOf hc
  have hblt := hlt b hb
  rcases hnib with h | h <;> subst h
  · exact hexDigit_mem_hexAlphabet _ (Nat.div_lt_of_lt_mul (by omega))
  · exact hexDigit_mem_hexAlphabet _ (Nat.mod_lt _ (by norm_num))

/-- The length of a hex-encoded byte list is twice the byte count. -/
theorem encode_hex_length (bs : List Nat) : (encode_hex bs).length = 2 * bs.length := by
  rw [encode_hex_eq_mk]
  simpa [String.length] using hexCharsOf_length bs

/-! ## Claim theorems -/

/-- C1: for every path and each of the four operations, whenever the
operation returns successfully the returned string has length exactly
`2 × digest_size` (56/64/96/128 characters for digest sizes 28/32/48/64
bytes) and every character is a lowercase hex character in `[0-9a-f]`, with
no separators, prefix, or line breaks. -/
theorem C1_success_hex_format (D : Alg) (fs : FileSystem) (p s : String)
    (h : hash_file D fs p = .ok s) :
    s.length = 2 * digest_size D ∧ ∀ c ∈ s.data, c ∈ hexAlphabet := by
  cases hf : is_file fs p with
  | false => simp [hash_file, hf] at h
  | true =>
      cases hr : fs.read p with
      | error e => simp [hash_file, hf, hr] at h
      | ok data =>
          have hs : s = encode_hex (digestBytes D data) := by
            simp [hash_file, hf, hr] at h
            exact h.symm
          subst hs
          refine ⟨?_, encode_hex_chars (digestBytes_lt D data)⟩
          rw [encode_hex_length, digestBytes_length]

/-- Witness for C1: the SHA-256 digest of an empty file has the required
length. -/
theorem C1_success_hex_format_witness :
    ("e3b0c44298fc1c149afbf4c8996fb92427ae41e4649b934ca495991b7852b855").length =
      2 * digest_size .sha256 :=
  (C1_success_hex_format .sha256 fsEmptyFile "f"
    "e3b0c44298fc1c149afbf4c8996fb92427ae41e4649b934ca495991b7852b855" (by rfl)).1

/-- C2: for every path that does not exist (the metadata query fails with
`NotFound`), each operation returns a `NotFound` error, and no read of the
file is attempted: the outcome is the same under every read oracle and the
call's trace stops at the failed check. -/
theorem C2_missing_path_notfound (D : Alg) (fs : FileSystem) (p : String) (e : IOError)
    (hm : fs.metadata p = .error e) (_hk : e.kind = .notFound) :
    hash_file D fs p = .error ⟨.notFound, invalidPathMsg⟩ ∧
    (∀ r, hash_file D (withRead fs r) p = .error ⟨.notFound, invalidPathMsg⟩) ∧
    (hash_file_trace D fs p).2 = [.checkEv false] := by
  have hf : is_file fs p = false := by simp [is_file, hm]
  have he : pathExists fs p = false := by simp [pathExists, hm]
  refine ⟨by simp [hash_file, hf, he], fun r => ?_, by simp [hash_file_trace, hf]⟩
  have hf' : is_file (withRead fs r) p = false := by simp [is_file, withRead, hm]
  have he' : pathExists (withRead fs r) p = false := by simp [pathExists, withRead, hm]
  simp [hash_file, hf', he']

/-- Witness for C2: a missing path yields `NotFound` for SHA-256. -/
theorem C2_missing_path_notfound_witness :
    hash_file .sha256 fsMissing "nope" = .error ⟨.notFound, invalidPathMsg⟩ :=
  (C2_missing_path_notfound .sha256 fsMissing "nope"
    ⟨.notFound, "No such file or directory"⟩ rfl rfl).1

/-- C3: for every path that exists but is not a regular file (its metadata
query succeeds and reports a non-file), each operation returns an
`InvalidInput` error and no read is attempted; `InvalidInput` and `NotFound`
are distinct kinds, so the two cases are distinguishable. -/
theorem C3_nonfile_invalid_input (D : Alg) (fs : FileSystem) (p : String) (m : Metadata)
    (hm : fs.metadata p = .ok m) (hnf : m.is_file = false) :
    hash_file D fs p = .error ⟨.invalidInput, invalidPathMsg⟩ ∧
    (∀ r, hash_file D (withRead fs r) p = .error ⟨.invalidInput, invalidPathMsg⟩) ∧
    (hash_file_trace D fs p).2 = [.checkEv false] ∧
    ErrorKind.invalidInput ≠ ErrorKind.notFound := by
  have hf : is_file fs p = false := by simp [is_file, hm, hnf]
  have he : pathExists fs p = true := by simp [pathExists, hm]
  refine ⟨by simp [hash_file, hf, he], fun r => ?_,
    by simp [hash_file_trace, hf], by simp⟩
  have hf' : is_file (withRead fs r) p = false := by simp [is_file, withRead, hm, hnf]
  have he' : pathExists (withRead fs r) p = true := by simp [pathExists, withRead, hm]
  simp [hash_file, hf', he']

/-- Witness for C3: a directory yields `InvalidInput` for SHA-384. -/
theorem C3_nonfile_invalid_input_witness :
    hash_file .sha384 fsDir "somedir" = .error ⟨.invalidInput, invalidPathMsg⟩ :=
  (C3_nonfile_invalid_input .sha384 fsDir "somedir" ⟨false⟩ rfl rfl).1

/-- C4: for every path and algorithm, the blocking and the suspending
embeddings of `hash_file`, evaluated against the same filesystem state,
return the same result — identical strings on success, identical errors on
failure. -/
theorem C4_sync_async_equivalent (D : Alg) (fs : FileSystem) (p : String) :
    hash_file_async D fs p = hash_file D fs p := rfl

/-- C5: for every path whose check passes but whose whole-file read fails,
each operation returns exactly the I/O error produced by the read, unchanged
in kind and message. -/
theorem C5_read_error_propagated (D : Alg) (fs : FileSystem) (p : String) (e : IOError)
    (hf : is_file fs p = true) (hr : fs.read p = .error e) :
    hash_file D fs p = .error e := by
  simp [hash_file, hf, hr]

/-- Witness for C5: a permission-denied read is returned verbatim. -/
theorem C5_read_error_propagated_witness :
    hash_file .sha512 fsUnreadable "f" = .error ⟨.permissionDenied, "Permission denied"⟩ :=
  C5_read_error_propagated .sha512 fsUnreadable "f"
    ⟨.permissionDenied, "Permission denied"⟩ rfl rfl

/-- C6: within every call the steps occur in a fixed order — check, then
read, then hash; a failed check returns immediately with no read and no
hash; there is exactly one failure exit before the read and one at the read;
a digest is returned only when every step succeeded. The instrumented run
returns the same result as `hash_file` and its trace is always one of the
three step sequences. -/
theorem C6_step_ordering (D : Alg) (fs : FileSystem) (p : String) :
    (hash_file_trace D fs p).1 = hash_file D fs p ∧
    ((∃ e, hash_file_trace D fs p = (.error e, [.checkEv false])) ∨
     (∃ e, hash_file_trace D fs p = (.error e, [.checkEv true, .readEv false])) ∨
     (∃ s, hash_file_trace D fs p = (.ok s, [.checkEv true, .readEv true, .hashEv]))) := by
  cases hf : is_file fs p with
  | false =>
      exact ⟨by simp [hash_file_trace, hash_file, hf],
        Or.inl ⟨⟨if pathExists fs p then .invalidInput else .notFound, invalidPathMsg⟩,
          by simp [hash_file_trace, hf]⟩⟩
  | true =>
      cases hr : fs.read p with
      | error e =>
          exact ⟨by simp [hash_file_trace, hash_file, hf, hr],
            Or.inr (Or.inl ⟨e, by simp [hash_file_trace, hf, hr]⟩)⟩
      | ok data =>
          exact ⟨by simp [hash_file_trace, hash_file, hf, hr],
            Or.inr (Or.inr ⟨encode_hex (digestBytes D data),
              by simp [hash_file_trace, hf, hr]⟩)⟩

/-- C7: each operation is deterministic — any two calls of the same
algorithm observing the same file content return the same string, a pure
function of the file's bytes and the algorithm, independent of path,
filesystem identity, or any retained state. -/
theorem C7_deterministic (D : Alg) (fs1 fs2 : FileSystem) (p1 p2 : String)
    (data : List Nat)
    (hf1 : is_file fs1 p1 = true) (hf2 : is_file fs2 p2 = true)
    (hr1 : fs1.read p1 = .ok data) (hr2 : fs2.read p2 = .ok data) :
    hash_file D fs1 p1 = .ok (encode_hex (digestBytes D data)) ∧
    hash_file D fs1 p1 = hash_file D fs2 p2 := by
  have h1 : hash_file D fs1 p1 = .ok (encode_hex (digestBytes D data)) := by
    simp [hash_file, hf1, hr1]
  have h2 : hash_file D fs2 p2 = .ok (encode_hex (digestBytes D data)) := by
    simp [hash_file, hf2, hr2]
  exact ⟨h1, h1.trans h2.symm⟩

/-- Witness for C7: two calls on different paths with equal (empty) content
agree. -/
theorem C7_deterministic_witness :
    hash_file .sha224 fsEmptyFile "x" = hash_file .sha224 fsEmptyFile "y" :=
  (C7_deterministic .sha224 fsEmptyFile fsEmptyFile "x" "y" [] rfl rfl rfl rfl).2

/-- C8: hashing a file holding the repository's sample fixture content (the
byte sequence whose SHA-256 digest is
`44c92e3a70ad3307b7056871c2bdb096d8bfa9373f5bf06a79bb6324a20ff2fb`) yields
the spec's reference digests for SHA-224, SHA-384 and SHA-512. -/
theorem C8_fixture_known_answers (fs : FileSystem) (p : String)
    (hf : is_file fs p = true) (hr : fs.read p = .ok fixtureContent) :
    sha256 fs p =
      .ok "44c92e3a70ad3307b7056871c2bdb096d8bfa9373f5bf06a79bb6324a20ff2fb" ∧
    sha224 fs p =
      .ok "e7f68a0e088b02bded91142bb43538b0338ead063a1bdf1d158ef174" ∧
    sha384 fs p =
      .ok "16c6a6c5fb77fb778b0739b93005a54bf4d5d011ecfc151d1d28680df65829fb25e4f639d12ea5bd0d95fb15a02a9d46" ∧
    sha512 fs p =
      .ok "cce95db66253cee0b4543434b0a93382fdd876996f0783709144d7317cc1686b97f907a4f18da2bdf95461b140129eb93242a842b3eee0878973ac139482db54" := by
  have key : ∀ D, hash_file D fs p = .ok (encode_hex (digestBytes D fixtureContent)) := by
    intro D
    simp [hash_file, hf, hr]
  refine ⟨?_, ?_, ?_, ?_⟩
  · rw [sha256, key]; rfl
  · rw [sha224, key]; rfl
  · rw [sha384, key]; rfl
  · rw [sha512, key]; rfl

/-- Witness for C8: the fixture file's SHA-224 on a concrete filesystem. -/
theorem C8_fixture_known_answers_witness :
    sha224 fsFixture "g" =
      .ok "e7f68a0e088b02bded91142bb43538b0338ead063a1bdf1d158ef174" :=
  (C8_fixture_known_answers fsFixture "g" rfl rfl).2.1

/-- C9: for every existing readable regular file with empty content, each of
the four operations succeeds and returns the well-known SHA-2 empty-input
digest of its algorithm, hex-encoded. -/
theorem C9_empty_file_digests (fs : FileSystem) (p : String)
    (hf : is_file fs p = true) (hr : fs.read p = .ok []) :
    sha224 fs p =
      .ok "d14a028c2a3a2bc9476102bb288234c415a2b01f828ea62ac5b3e42f" ∧
    sha256 fs p =
      .ok "e3b0c44298fc1c149afbf4c8996fb92427ae41e4649b934ca495991b7852b855" ∧
    sha384 fs p =
      .ok "38b060a751ac96384cd9327eb1b1e36a21fdb71114be07434c0cc7bf63f6e1da274edebfe76f65fbd51ad2f14898b95b" ∧
    sha512 fs p =
      .ok "cf83e1357eefb8bdf1542850d66d8007d620e4050b5715dc83f4a921d36ce9ce47d0d13c5d85f2b0ff8318d2877eec2f63b931bd47417a81a538327af927da3e" := by
  have key : ∀ D, hash_file D fs p = .ok (encode_hex (digestBytes D [])) := by
    intro D
    simp [hash_file, hf, hr]
  refine ⟨?_, ?_, ?_, ?_⟩
  · rw [sha224, key]; rfl
  · rw [sha256, key]; rfl
  · rw [sha384, key]; rfl
  · rw [sha512, key]; rfl

/-- Witness for C9: the empty file's SHA-256 on a concrete filesystem. -/
theorem C9_empty_file_digests_witness :
    sha256 fsEmptyFile "f" =
      .ok "e3b0c44298fc1c149afbf4c8996fb92427ae41e4649b934ca495991b7852b855" :=
  (C9_empty_file_digests fsEmptyFile "f" rfl rfl).2.1

/-- C10 (implicit): whenever the metadata query of the validation step
itself fails — with any error, e.g. permission denied — both `is_file` and
`exists` report false, so every operation returns a `NotFound` error with
the fixed message "Invalid path: must be an existing and accessible file";
the query's own error is never propagated and never reported as
`InvalidInput`. -/
theorem C10_metadata_failure_notfound (D : Alg) (fs : FileSystem) (p : String)
    (e : IOError) (hm : fs.metadata p = .error e) :
    is_file fs p = false ∧ pathExists fs p = false ∧
    hash_file D fs p = .error ⟨.notFound, invalidPathMsg⟩ := by
  have hf : is_file fs p = false := by simp [is_file, hm]
  have he : pathExists fs p = false := by simp [pathExists, hm]
  exact ⟨hf, he, by simp [hash_file, hf, he]⟩

/-- Witness for C10: a permission-denied metadata query yields `NotFound`
with the fixed message. -/
theorem C10_metadata_failure_notfound_witness :
    hash_file .sha224 fsDenied "locked" = .error ⟨.notFound, invalidPathMsg⟩ :=
  (C10_metadata_failure_notfound .sha224 fsDenied "locked"
    ⟨.permissionDenied, "Permission denied"⟩ rfl).2.2

end Sha2Hasher
